import Mathlib

/-!
Verification of the zonal-statistics / matching pipeline of the
`chicago_lst` repository against its specification.

Modelling conventions (shallow embedding):
* a floating-point value is modelled as `Option ℚ`: `some q` is a finite
  value, `none` stands for a non-finite float (NaN or ±inf), matching how
  the code only ever distinguishes finite from non-finite via
  `np.isfinite` and propagates NaN through arithmetic;
* numpy arrays are Lean lists, pointwise numpy operations are `List.map`
  and `List.zipWith`;
* a Python function that can raise is embedded as `Except String`;
* quantities that the source obtains as the square root of a rational
  (standard deviations, Euclidean distances) are carried in squared form,
  since the square root is strictly monotone on the non-negatives all
  order and (in)equality comparisons coincide; each such spot is noted.
-/

/-- A pixel or statistic value: `some q` models a finite float, `none`
models a non-finite float (NaN or ±inf). -/
abbrev Val := Option ℚ

/-- Mean of a list of rationals (`vals.mean()` in the source; only used
on non-empty lists there). -/
def meanQ (l : List ℚ) : ℚ := l.sum / l.length

/-- Insert into a ≤-sorted list of rationals, keeping it sorted. -/
def insertQ (x : ℚ) : List ℚ → List ℚ
  | [] => [x]
  | y :: ys => if x ≤ y then x :: y :: ys else y :: insertQ x ys

/-- Ascending sort of a list of rationals (the sort underlying
`np.median` / `np.percentile`). -/
def sortQ (l : List ℚ) : List ℚ := l.foldr insertQ []

/-- Linear-interpolated quantile at fraction `q` (numpy's default
"linear" method used by `np.percentile` and `np.nanpercentile`):
with `h = q*(n-1)`, interpolates between the floor-index and the next
sorted element. -/
def percentileQ (l : List ℚ) (q : ℚ) : ℚ :=
  let s := sortQ l
  let n := s.length
  let h := q * ((n : ℚ) - 1)
  let i := (⌊h⌋).toNat
  let frac := h - (⌊h⌋ : ℚ)
  if i + 1 < n then s.getD i 0 + frac * (s.getD (i + 1) 0 - s.getD i 0)
  else s.getD i 0

/-- Median as computed by `np.median`: middle element for odd length,
mean of the two middle elements for even length. -/
def medianQ (l : List ℚ) : ℚ :=
  let s := sortQ l
  let n := s.length
  if n % 2 = 1 then s.getD (n / 2) 0
  else (s.getD (n / 2 - 1) 0 + s.getD (n / 2) 0) / 2

/-- Embedding of `safe_stat` from `01_extract_zonal_timeseries.py`:
returns NaN (`none`) when the array has size zero, or when no element is
finite; otherwise reduces the finite values with the named statistic;
raises `ValueError` on an unknown statistic name. -/
def safe_stat (arr : List Val) (stat : String) : Except String Val :=
  if arr.length = 0 then .ok none
  else
    let vals := arr.filterMap id
    if vals.length = 0 then .ok none
    else
      if stat = "mean" then .ok (some (meanQ vals))
      else if stat = "median" then .ok (some (medianQ vals))
      else if stat = "p90" then .ok (some (percentileQ vals (9 / 10)))
      else if stat = "count" then .ok (some (vals.length : ℚ))
      else .error ("Unknown stat: " ++ stat)

/-- Embedding of the `value_transform` section of the configuration
(`TransformSpec` in `utils_config.py`): a type tag plus optional scale
and offset. -/
structure TransformSpec where
  type : String
  scale : Option ℚ
  offset : Option ℚ
deriving DecidableEq, Repr

/-- Embedding of `transform_values` from `01_extract_zonal_timeseries.py`:
identity returns the array unchanged; `scale_offset` maps every element
to `v*scale + offset` (defaulting a missing scale to 1 and a missing
offset to 0, and leaving non-finite cells non-finite, as numpy
arithmetic propagates NaN); any other type raises `ValueError`. -/
def transform_values (arr : List Val) (ts : TransformSpec) : Except String (List Val) :=
  if ts.type = "identity" then .ok arr
  else if ts.type = "scale_offset" then
    let scale := ts.scale.getD 1
    let offset := ts.offset.getD 0
    .ok (arr.map (fun v => v.map (fun q => q * scale + offset)))
  else .error ("Unknown value_transform.type: " ++ ts.type)

/-- C1: for each of the four requested statistics, `safe_stat` returns
NaN both on a zero-size array and on a non-empty array with zero finite
values; in particular the count statistic is NaN, never 0, whenever the
finite-pixel count is zero. -/
theorem safe_stat_nan_when_no_finite (arr : List Val) (stat : String)
    (_hstat : stat = "mean" ∨ stat = "median" ∨ stat = "p90" ∨ stat = "count")
    (hnf : ∀ v ∈ arr, v = none) :
    safe_stat arr stat = .ok none ∧ safe_stat arr stat ≠ .ok (some 0) := by
  have hfm : arr.filterMap id = [] := by
    induction arr with
    | nil => rfl
    | cons a t ih =>
      have ha : a = none := hnf a (List.mem_cons_self a t)
      have ht : ∀ v ∈ t, v = none := fun v hv => hnf v (List.mem_cons_of_mem a hv)
      simp [List.filterMap, ha, ih ht]
  have hres : safe_stat arr stat = .ok none := by
    unfold safe_stat
    by_cases h0 : arr.length = 0
    · simp [h0]
    · simp [h0, hfm]
  exact ⟨hres, by simp [hres]⟩

/-- Witness for `safe_stat_nan_when_no_finite` at arr = [none],
stat = count. -/
theorem safe_stat_nan_when_no_finite_witness :
    safe_stat [none] "count" = .ok none ∧ safe_stat [none] "count" ≠ .ok (some 0) :=
  safe_stat_nan_when_no_finite [none] "count" (by simp) (by simp)

/-- C8: the value transform is pointwise; the `scale_offset` transform is
linear (`v*scale + offset`, with missing scale defaulting to 1 and
missing offset to 0), and the `identity` transform returns every value
unchanged. -/
theorem transform_values_pointwise (arr : List Val) (ts : TransformSpec) :
    (ts.type = "identity" → transform_values arr ts = .ok arr)
    ∧ (ts.type = "scale_offset" →
        transform_values arr ts =
          .ok (arr.map (fun v => v.map
            (fun q => q * ts.scale.getD 1 + ts.offset.getD 0)))) := by
  constructor
  · intro h; simp [transform_values, h]
  · intro h
    have hne : ts.type ≠ "identity" := by simp [h]
    simp [transform_values, h, hne]

/-- Witness for `transform_values_pointwise`: the identity transform at
value 3, and a scale-offset transform at value 3 (scale 2, offset 5). -/
theorem transform_values_pointwise_witness :
    transform_values [some 3] ⟨"identity", none, none⟩ = .ok [some 3]
    ∧ transform_values [some 3] ⟨"scale_offset", some 2, some 5⟩ =
        .ok ([some 3].map (fun v => v.map
          (fun q => q * (some (2:ℚ)).getD 1 + (some (5:ℚ)).getD 0))) :=
  ⟨(transform_values_pointwise [some 3] ⟨"identity", none, none⟩).1 rfl,
   (transform_values_pointwise [some 3] ⟨"scale_offset", some 2, some 5⟩).2 rfl⟩

/-- C7 counterexample: `safe_stat` on a zero-size array with an unknown
statistic name returns NaN instead of raising, because the empty-array
early return precedes the statistic-name dispatch; so the reduction does
not raise on an unknown statistic name regardless of array contents. -/
theorem safe_stat_unknown_on_empty_no_raise :
    safe_stat [] "bogus" = .ok none := rfl

/-- C7 (amended): an unknown `value_transform` type always raises, for
every input array; an unknown statistic name raises whenever the array
is non-empty and contains at least one finite value (with an empty or
all-non-finite array the NaN early returns take precedence). -/
theorem unknown_stat_or_transform_raises (arr : List Val) (stat : String)
    (ts : TransformSpec)
    (hstat : stat ≠ "mean" ∧ stat ≠ "median" ∧ stat ≠ "p90" ∧ stat ≠ "count")
    (hfin : (arr.filterMap id).length ≠ 0)
    (hts : ts.type ≠ "identity" ∧ ts.type ≠ "scale_offset") :
    safe_stat arr stat = .error ("Unknown stat: " ++ stat)
    ∧ transform_values arr ts = .error ("Unknown value_transform.type: " ++ ts.type) := by
  constructor
  · have hlen : arr.length ≠ 0 := by
      intro h0
      have : arr = [] := List.length_eq_zero.mp h0
      subst this
      simp at hfin
    unfold safe_stat
    simp [hlen, hfin, hstat.1, hstat.2.1, hstat.2.2.1, hstat.2.2.2]
  · unfold transform_values
    simp [hts.1, hts.2]

/-- Witness for `unknown_stat_or_transform_raises` at arr = [some 1],
stat = bogus, transform type = weird. -/
theorem unknown_stat_or_transform_raises_witness :
    safe_stat [some 1] "bogus" = .error ("Unknown stat: " ++ "bogus")
    ∧ transform_values [some 1] ⟨"weird", none, none⟩ =
        .error ("Unknown value_transform.type: " ++ "weird") :=
  unknown_stat_or_transform_raises [some 1] "bogus" ⟨"weird", none, none⟩
    (by refine ⟨?_, ?_, ?_, ?_⟩ <;> decide) (by decide) (by refine ⟨?_, ?_⟩ <;> decide)

/-- Clip a rational to the interval [lo, hi], as `Series.clip(lower, upper)`
does for finite values (`min(max(x, lo), hi)`). -/
def clipQ (lo hi x : ℚ) : ℚ := min (max x lo) hi

/-- Embedding of the composite risk score from
`02_compute_anomaly_and_risk.py` (lines 96-99):
`z.clip(-3, 6).fillna(0) * 10 + (hot_nights_14/14) * 25 +
trend.clip(0, 5).fillna(0) * 5`, clipped to [0, 100]. A pandas clip
leaves NaN as NaN, and the subsequent `fillna(0)` turns it into 0, which
the `Option.map`-then-`getD 0` chain mirrors; `hot_nights_14` was
`fillna(0).astype(int)` upstream, hence a natural number. -/
def risk_score (z : Val) (hotNights14 : ℕ) (trend : Val) : ℚ :=
  let zClip := (z.map (clipQ (-3) 6)).getD 0
  let freqScore := ((hotNights14 : ℚ) / 14) * 25
  let trendScore := (trend.map (clipQ 0 5)).getD 0 * 5
  clipQ 0 100 (zClip * 10 + freqScore + trendScore)

/-- C3: the composite risk score equals
clip(z,-3,6)*10 + (hot/14)*25 + clip(trend,0,5)*5 clipped to [0,100];
for every finite-or-NaN z and trend and hot count in 0..14 the score is
in [0, 100], and a NaN z or NaN trend contributes exactly 0 (the same
score as a zero input on that slot), rather than propagating NaN. -/
theorem risk_score_formula_and_bounds (z trend : Val) (hot : ℕ) (_hhot : hot ≤ 14) :
    risk_score z hot trend =
      clipQ 0 100 ((z.map (clipQ (-3) 6)).getD 0 * 10
        + ((hot : ℚ) / 14) * 25 + (trend.map (clipQ 0 5)).getD 0 * 5)
    ∧ 0 ≤ risk_score z hot trend ∧ risk_score z hot trend ≤ 100
    ∧ risk_score none hot trend = risk_score (some 0) hot trend
    ∧ risk_score z hot none = risk_score z hot (some 0) := by
  have hz0 : clipQ (-3) 6 0 = 0 := by norm_num [clipQ]
  have ht0 : clipQ 0 5 0 = 0 := by norm_num [clipQ]
  refine ⟨rfl, ?_, ?_, ?_, ?_⟩
  · have h14 : ((hot : ℚ) / 14) * 25 = ((hot : ℚ) / 14) * 25 := rfl
    unfold risk_score clipQ
    positivity
  · unfold risk_score clipQ
    exact min_le_right _ _
  · simp [risk_score, hz0]
  · simp [risk_score, ht0]

/-- Witness for `risk_score_formula_and_bounds` at z = NaN, hot = 14,
trend = 2. -/
theorem risk_score_formula_and_bounds_witness :
    risk_score none 14 (some 2) =
      clipQ 0 100 (((none : Val).map (clipQ (-3) 6)).getD 0 * 10
        + ((14 : ℕ) : ℚ) / 14 * 25 + ((some (2:ℚ)).map (clipQ 0 5)).getD 0 * 5)
    ∧ 0 ≤ risk_score none 14 (some 2) ∧ risk_score none 14 (some 2) ≤ 100
    ∧ risk_score none 14 (some 2) = risk_score (some 0) 14 (some 2)
    ∧ risk_score none 14 none = risk_score none 14 (some 0) :=
  risk_score_formula_and_bounds none (some 2) 14 (by decide)

/-- Population variance (ddof = 0): the biased variance used by
sklearn's StandardScaler when fitting scale factors, and the square of
the "population standard deviation" named by the specification's
baseline description. Division by a zero length yields 0 (unused). -/
def popVarQ (l : List ℚ) : ℚ :=
  (l.map (fun x => (x - meanQ l) ^ 2)).sum / l.length

/-- Sample variance (ddof = 1), the square of what pandas `std`
computes: NaN for fewer than two values, else the Bessel-corrected
variance. The source's `baseline_std` is the square root of this;
square root is injective on the non-negatives, so equality and NaN-ness
of standard deviations match those of these squared values. -/
def sampleVarQ (l : List ℚ) : Val :=
  if l.length ≤ 1 then none
  else some ((l.map (fun x => (x - meanQ l) ^ 2)).sum / ((l.length : ℚ) - 1))

/-- Baseline fields attached to one (aoi_id, calendar-bucket) group by
`02_compute_anomaly_and_risk.py`; `baseline_std_sq` carries the square
of the source's `baseline_std` column. -/
structure BaselineFields where
  baseline_mean : Val
  baseline_std_sq : Val
  baseline_p90 : Val
  n_obs : ℕ
deriving DecidableEq, Repr

/-- Embedding of the grouped baseline aggregation of
`02_compute_anomaly_and_risk.py` (lines 56-66) for one group, applied to
the group's list of primary-statistic values: pandas `mean`/`std`/count
skip NaN, `np.nanpercentile` ignores NaN (all-NaN giving NaN), and rows
of groups with `n_obs < min_obs_per_group` then have all three baseline
fields overwritten with NaN. -/
def baselineAgg (vals : List Val) (minObs : ℕ) : BaselineFields :=
  let fin := vals.filterMap id
  let nObs := fin.length
  let bmean : Val := if fin.length = 0 then none else some (meanQ fin)
  let bstdSq : Val := sampleVarQ fin
  let bp90 : Val := if fin.length = 0 then none else some (percentileQ fin (9 / 10))
  if nObs < minObs then ⟨none, none, none, nObs⟩ else ⟨bmean, bstdSq, bp90, nObs⟩

/-- The left-merge of the baseline table back onto the observations
(`df.merge(base, on=[aoi_id, group], how=left)`): every member
observation of a group receives that group's baseline fields. -/
def memberBaselineFields (vals : List Val) (minObs : ℕ) : List BaselineFields :=
  vals.map (fun _ => baselineAgg vals minObs)

/-- C4 counterexample: for the group with values [0, 2] and
min_obs_per_group = 2, the code's baseline standard deviation is the
sample standard deviation sqrt(2) (squared: 2), while the population
standard deviation of the group is 1 (squared: 1) — pandas `std` uses
ddof = 1, so the claim's "population standard deviation" is wrong. -/
theorem baseline_std_is_not_population :
    (baselineAgg [some 0, some 2] 2).baseline_std_sq = some 2
    ∧ popVarQ [0, 2] = 1
    ∧ (baselineAgg [some 0, some 2] 2).baseline_std_sq ≠ some (popVarQ [0, 2]) := by
  have hf : (List.filterMap id [some (0:ℚ), some 2]) = [0, 2] := rfl
  have h1 : (baselineAgg [some 0, some 2] 2).baseline_std_sq = some 2 := by
    norm_num [baselineAgg, sampleVarQ, meanQ, hf]
  have h2 : popVarQ [0, 2] = 1 := by
    norm_num [popVarQ, meanQ]
  exact ⟨h1, h2, by rw [h1, h2]; norm_num⟩

/-- C4 (amended): for every group whose non-NaN observation count is at
least min_obs_per_group (taken ≥ 1), the baseline fields are the group
mean, the sample (ddof = 1) standard deviation — NaN for a singleton
group — and the linear-interpolated 90th percentile, and the baseline
mean is non-NaN; every group below the minimum contributes NaN for all
three fields to every member observation. -/
theorem baseline_fields_by_group_size (vals : List Val) (minObs : ℕ)
    (hmin : 1 ≤ minObs) :
    (minObs ≤ (vals.filterMap id).length →
      baselineAgg vals minObs =
        ⟨some (meanQ (vals.filterMap id)), sampleVarQ (vals.filterMap id),
          some (percentileQ (vals.filterMap id) (9 / 10)),
          (vals.filterMap id).length⟩
      ∧ (baselineAgg vals minObs).baseline_mean ≠ none)
    ∧ ((vals.filterMap id).length < minObs →
        ∀ f ∈ memberBaselineFields vals minObs,
          f.baseline_mean = none ∧ f.baseline_std_sq = none ∧ f.baseline_p90 = none) := by
  constructor
  · intro h
    have hlen0 : (vals.filterMap id).length ≠ 0 := by omega
    have hnot : ¬ ((vals.filterMap id).length < minObs) := not_lt.mpr h
    have heq : baselineAgg vals minObs =
        ⟨some (meanQ (vals.filterMap id)), sampleVarQ (vals.filterMap id),
          some (percentileQ (vals.filterMap id) (9 / 10)),
          (vals.filterMap id).length⟩ := by
      unfold baselineAgg
      simp [hnot, hlen0]
    exact ⟨heq, by simp [heq]⟩
  · intro h f hf
    have hfe : f = baselineAgg vals minObs := by
      rcases List.mem_map.mp hf with ⟨v, _, hv⟩
      exact hv.symm
    subst hfe
    unfold baselineAgg
    simp [h]

/-- Witness for `baseline_fields_by_group_size` at group [0, 2, 4] with
min_obs_per_group = 2 (the group meets the minimum). -/
theorem baseline_fields_by_group_size_witness :
    baselineAgg [some 0, some 2, some 4] 2 =
      ⟨some (meanQ [0, 2, 4]), sampleVarQ [0, 2, 4],
        some (percentileQ [0, 2, 4] (9 / 10)), 3⟩
    ∧ (baselineAgg [some 0, some 2, some 4] 2).baseline_mean ≠ none :=
  (baseline_fields_by_group_size [some 0, some 2, some 4] 2 (by decide)).1
    (by decide)

/-- Embedding of the usability flagging of
`30_collapse_and_filter_observations.py` (lines 81-91) for one AOI:
the per-AOI 95th-percentile pixel count (`np.nanpercentile(..., 95)`),
the adaptive threshold `max(min_abs_pixels, min_frac_of_p95 * p95)`,
and the flag `pixels >= threshold` for each collapsed observation. -/
def usabilityFlags (pixelCounts : List ℚ) (minAbsPixels minFracOfP95 : ℚ) : List Bool :=
  let p95 := percentileQ pixelCounts (19 / 20)
  let thr := max minAbsPixels (minFracOfP95 * p95)
  pixelCounts.map (fun c => decide (thr ≤ c))

/-- C9: each observation's usability threshold is
max(min_abs_pixels, min_frac_of_p95 * AOI 95th-percentile pixel count)
and the observation is usable exactly when its pixel count reaches it;
with counts [50]*9 ++ [2], min_abs_pixels = 5, min_frac_of_p95 = 0.25,
the nine 50-pixel observations are usable and the 2-pixel one is not. -/
theorem usability_threshold_correct (counts : List ℚ) (aMin fMin : ℚ) (i : ℕ) :
    (usabilityFlags counts aMin fMin)[i]? =
      (counts[i]?).map
        (fun c => decide (max aMin (fMin * percentileQ counts (19 / 20)) ≤ c))
    ∧ usabilityFlags [50, 50, 50, 50, 50, 50, 50, 50, 50, 2] 5 (1 / 4) =
        [true, true, true, true, true, true, true, true, true, false] := by
  constructor
  · simp [usabilityFlags]
  · norm_num [usabilityFlags, percentileQ, sortQ, insertQ]
    simp only [show ((8:ℤ)).toNat = 8 from rfl]
    norm_num

/-- Embedding of the `quality` section of the configuration
(`QualitySpec` in `utils_config.py`), restricted to the fields the
masking logic reads. -/
structure QualitySpec where
  enabled : Bool
  ecostress_companion_masks : Bool
  keep_cloud_values : List ℤ
  keep_water_values : List ℤ
  qc_keep_classes : List ℕ
  qc_class_bitmask : ℕ
  max_lst_err : Option ℚ
deriving Repr

/-- The fields of the configuration that `zonal_stats_for_geom` reads. -/
structure ZonalCfg where
  stats : List String
  nodata_equals : Option ℚ
  nodata_below : Option ℚ
  value_transform : TransformSpec
  quality : QualitySpec

/-- Embedding of the `_mask_band` helper inside `zonal_stats_for_geom`:
an absent companion source (`None`) yields no band, and a companion
whose crop/mask raises `ValueError` also yields no band; otherwise the
cropped band. The outer `Option` is the source handle, the `Except` the
crop/mask outcome. -/
def maskBand {α : Type} : Option (Except Unit (List α)) → Option (List α)
  | none => none
  | some (.error _) => none
  | some (.ok band) => some band

/-- One conjunct of the keep-mask: an absent band contributes no
constraint (keep-mask unchanged), a present band ANDs its per-pixel
predicate in (`keep &= np.isin(...)` and friends). -/
def andChannel {α : Type} (keep : List Bool) (band : Option (List α))
    (pred : α → Bool) : List Bool :=
  match band with
  | none => keep
  | some b => keep.zipWith (fun k x => k && pred x) b

/-- Embedding of the quality-mask composition in `zonal_stats_for_geom`
(lines 122-153): keep starts as "finite", then the cloud allow-list,
water allow-list, QC class allow-list (`(qc & bitmask)` truncated to
uint8), and — only when a ceiling is configured — the uncertainty
ceiling are ANDed in; rejected cells become NaN. -/
def applyQuality (q : QualitySpec) (data : List Val)
    (cloud water : Option (Except Unit (List ℤ)))
    (qc : Option (Except Unit (List ℕ)))
    (err : Option (Except Unit (List ℚ))) : List Val :=
  let keep0 := data.map (fun v => v.isSome)
  let keep1 := andChannel keep0 (maskBand cloud)
    (fun c => q.keep_cloud_values.contains c)
  let keep2 := andChannel keep1 (maskBand water)
    (fun c => q.keep_water_values.contains c)
  let keep3 := andChannel keep2 (maskBand qc)
    (fun c => q.qc_keep_classes.contains ((Nat.land c q.qc_class_bitmask) % 256))
  let keep4 :=
    match q.max_lst_err with
    | none => keep3
    | some ceil => andChannel keep3 (maskBand err) (fun e => decide (e ≤ ceil))
  data.zipWith (fun v k => if k then v else none) keep4

/-- Embedding of the nodata rules of `zonal_stats_for_geom`
(lines 113-120): cells equal to the raster's declared nodata, equal to
the configured scalar sentinel, or below the configured floor become
NaN (a NaN cell stays NaN through every rule). -/
def applyNodata (srcNodata ndEq ndBelow : Option ℚ) (v : Val) : Val :=
  let v1 := match srcNodata with
    | none => v
    | some q => v.bind (fun x => if x = q then none else some x)
  let v2 := match ndEq with
    | none => v1
    | some q => v1.bind (fun x => if x = q then none else some x)
  match ndBelow with
  | none => v2
  | some q => v2.bind (fun x => if x < q then none else some x)

/-- Embedding of `zonal_stats_for_geom` from
`01_extract_zonal_timeseries.py`. External geometry/raster effects are
oracle inputs: `intersectsBounds` is the outcome of the bounds
fast-reject test (`none` models the bounds check itself raising, which
the source catches and falls through); `maskResult` is the crop/mask
outcome (`Except.error` models the `ValueError` rasterio raises on
non-overlapping shapes) carrying the flat pixel array. The returned
flag records whether the crop/mask operation was attempted. -/
def zonal_stats_for_geom (cfg : ZonalCfg) (intersectsBounds : Option Bool)
    (maskResult : Except Unit (List Val)) (srcNodata : Option ℚ)
    (cloud water : Option (Except Unit (List ℤ)))
    (qc : Option (Except Unit (List ℕ)))
    (err : Option (Except Unit (List ℚ))) :
    Except String (List (String × Val)) × Bool :=
  match intersectsBounds with
  | some false => (.ok (cfg.stats.map (fun s => (s, none))), false)
  | _ =>
    match maskResult with
    | .error _ => (.ok (cfg.stats.map (fun s => (s, none))), true)
    | .ok raw =>
      let data1 := raw.map (applyNodata srcNodata cfg.nodata_equals cfg.nodata_below)
      let data2 :=
        if cfg.quality.enabled && cfg.quality.ecostress_companion_masks then
          applyQuality cfg.quality data1 cloud water qc err
        else data1
      match transform_values data2 cfg.value_transform with
      | .error e => (.error e, true)
      | .ok data3 =>
        (cfg.stats.mapM (fun s => (safe_stat data3 s).map (fun v => (s, v))), true)

/-- Embedding of the companion-raster opening block of `main` in
`01_extract_zonal_timeseries.py` (lines 212-230): the four candidates
are probed for existence and opened inside one shared try block, whose
except clause sets all four handles to None; so the resulting handles,
as a function of which candidates exist and which of the attempted
opens succeed, are all-None whenever any attempted open fails, and
otherwise present exactly for the existing candidates. -/
def openCompanions (cloudExists cloudOpens waterExists waterOpens
    qcExists qcOpens errExists errOpens : Bool) :
    Option Unit × Option Unit × Option Unit × Option Unit :=
  if (cloudExists && !cloudOpens) || (waterExists && !waterOpens)
      || (qcExists && !qcOpens) || (errExists && !errOpens) then
    (none, none, none, none)
  else
    (if cloudExists then some () else none,
     if waterExists then some () else none,
     if qcExists then some () else none,
     if errExists then some () else none)

/-- C5: a polygon strictly outside the raster bounds gets NaN for every
requested statistic with no crop/mask attempt (fast-reject path), and a
polygon passing the bounds test whose crop/mask reports a
non-overlapping intersection (`ValueError`) also gets NaN for every
statistic; both paths return a record rather than raising, whatever the
configured statistics are. -/
theorem zonal_nan_on_no_overlap (cfg : ZonalCfg)
    (mr : Except Unit (List Val)) (nd : Option ℚ)
    (cloud water : Option (Except Unit (List ℤ)))
    (qc : Option (Except Unit (List ℕ)))
    (err : Option (Except Unit (List ℚ))) :
    zonal_stats_for_geom cfg (some false) mr nd cloud water qc err
      = (.ok (cfg.stats.map (fun s => (s, none))), false)
    ∧ ∀ ib : Option Bool, ib ≠ some false →
        zonal_stats_for_geom cfg ib (.error ()) nd cloud water qc err
          = (.ok (cfg.stats.map (fun s => (s, none))), true) := by
  constructor
  · rfl
  · intro ib hib
    match ib with
    | none => rfl
    | some true => rfl
    | some false => exact absurd rfl hib

/-- Witness for `zonal_nan_on_no_overlap` at a two-statistic
configuration with every companion channel absent: the fast-reject path
and the empty-intersection path. -/
theorem zonal_nan_on_no_overlap_witness :
    zonal_stats_for_geom
        ⟨["mean", "count"], none, none, ⟨"identity", none, none⟩,
          ⟨true, true, [0], [0], [0, 1], 3, none⟩⟩
        (some false) (.ok [some 1]) none none none none none
      = (.ok ([("mean", (none : Val)), ("count", (none : Val))]), false)
    ∧ zonal_stats_for_geom
        ⟨["mean", "count"], none, none, ⟨"identity", none, none⟩,
          ⟨true, true, [0], [0], [0, 1], 3, none⟩⟩
        (some true) (.error ()) none none none none none
      = (.ok ([("mean", (none : Val)), ("count", (none : Val))]), true) :=
  ⟨(zonal_nan_on_no_overlap
      ⟨["mean", "count"], none, none, ⟨"identity", none, none⟩,
        ⟨true, true, [0], [0], [0, 1], 3, none⟩⟩
      (.ok [some 1]) none none none none none).1,
   (zonal_nan_on_no_overlap
      ⟨["mean", "count"], none, none, ⟨"identity", none, none⟩,
        ⟨true, true, [0], [0], [0, 1], 3, none⟩⟩
      (.error ()) none none none none none).2 (some true) (by decide)⟩

/-- C6 counterexample: with cloud present and opening cleanly but the QC
companion failing to open, the shared try/except nulls all four handles
— not just the QC channel — so the healthy cloud channel is disabled
too; and disabling the cloud channel does change the keep-mask: a pixel
the cloud band would reject (value 1 against allow-list [0]) is kept.
Hence an open failure does not disable only that one mask channel. -/
theorem companion_open_failure_disables_all :
    openCompanions true true false false true false false false
      = (none, none, none, none)
    ∧ applyQuality ⟨true, true, [0], [0], [0, 1], 3, none⟩ [some 5]
        (some (.ok [1])) none none none = [none]
    ∧ applyQuality ⟨true, true, [0], [0], [0, 1], 3, none⟩ [some 5]
        none none none none = [some 5] := by
  refine ⟨rfl, rfl, rfl⟩

/-- C6 (amended): a companion raster that is missing or whose crop/mask
fails disables only that one channel — a failed band is
indistinguishable from an absent one, and an absent band leaves the
keep-mask untouched — and such a failure is never fatal (the zonal
record is the same as with the channel absent); however an exception
while opening any companion raster nulls all four handles for the
time-slice, so an open failure disables every companion channel, not
just the failing one. -/
theorem companion_failure_channel_isolation
    (q : QualitySpec) (data : List Val)
    (cloud water : Option (Except Unit (List ℤ)))
    (qcB : Option (Except Unit (List ℕ)))
    (err : Option (Except Unit (List ℚ))) (u : Unit)
    (keep : List Bool) (pred : ℤ → Bool)
    (ce co we wo qe qo ee eo : Bool) :
    applyQuality q data (some (.error u)) water qcB err
      = applyQuality q data none water qcB err
    ∧ applyQuality q data cloud (some (.error u)) qcB err
      = applyQuality q data cloud none qcB err
    ∧ applyQuality q data cloud water (some (.error u)) err
      = applyQuality q data cloud water none err
    ∧ applyQuality q data cloud water qcB (some (.error u))
      = applyQuality q data cloud water qcB none
    ∧ andChannel keep none pred = keep
    ∧ (∀ (cfg : ZonalCfg) (ib : Option Bool) (mr : Except Unit (List Val))
        (nd : Option ℚ),
        zonal_stats_for_geom cfg ib mr nd (some (.error u)) water qcB err
          = zonal_stats_for_geom cfg ib mr nd none water qcB err)
    ∧ openCompanions ce co we wo qe qo ee eo =
        (if (ce && !co) || (we && !wo) || (qe && !qo) || (ee && !eo) then
          (none, none, none, none)
        else
          (if ce then some () else none, if we then some () else none,
           if qe then some () else none, if ee then some () else none)) := by
  have hcloud : ∀ (q' : QualitySpec) (d : List Val),
      applyQuality q' d (some (.error u)) water qcB err
        = applyQuality q' d none water qcB err := by
    intro q' d
    unfold applyQuality
    rfl
  refine ⟨hcloud q data, ?_, ?_, ?_, rfl, ?_, rfl⟩
  · unfold applyQuality; rfl
  · unfold applyQuality; rfl
  · unfold applyQuality; rfl
  · intro cfg ib mr nd
    unfold zonal_stats_for_geom
    match ib with
    | some false => rfl
    | some true =>
      match mr with
      | .error _ => rfl
      | .ok raw => simp only [hcloud]
    | none =>
      match mr with
      | .error _ => rfl
      | .ok raw => simp only [hcloud]

/-- One AOI row of the deduplicated matching table in
`34_match_controls_by_covariates.py`: its id and its covariate feature
vector. Feature values are modelled as rationals (finite floats). -/
structure AoiRow where
  aoi_id : String
  feats : List ℚ
deriving DecidableEq, Repr

/-- One `buffer_m` group of the pandas groupby in
`34_match_controls_by_covariates.py`: the treatment (data-center) rows
and the control rows sharing that buffer radius. -/
structure BufferGroup where
  buffer_m : ℚ
  dcs : List AoiRow
  ctrls : List AoiRow
deriving DecidableEq, Repr

/-- Embedding of the `MatchResult` dataclass of
`34_match_controls_by_covariates.py`. The `distance` field carries the
SQUARE of the source's standardized Euclidean distance: the source
stores `sqrt` of this value, and since the square root is strictly
monotone on the non-negatives, every ordering or equality comparison of
distances coincides. -/
structure MatchResult where
  data_center_aoi_id : String
  control_aoi_id : String
  buffer_m : ℚ
  match_rank : ℕ
  distance : ℚ
deriving DecidableEq, Repr

/-- Scale handling of sklearn's StandardScaler: a zero variance is
replaced by a unit scale (`_handle_zeros_in_scale`), otherwise the
variance itself (we work with variances, the squares of the scales). -/
def scaleVar (v : ℚ) : ℚ := if v = 0 then 1 else v

/-- Squared standardized Euclidean distance between two feature
vectors, given the per-feature pooled variances: the source computes
`sqrt(sum_f ((a_f - mean)/std - (b_f - mean)/std)^2)`, whose square is
`sum_f (a_f - b_f)^2 / var_f` since the mean shift cancels and the
squared scale is the variance. -/
def sqDistStd (vars : List ℚ) (a b : List ℚ) : ℚ :=
  ((a.zipWith (fun x y => (x - y) ^ 2) b).zipWith (fun d v => d / scaleVar v) vars).sum

/-- Insert an index into a list of indices sorted ascending by `key`. -/
def insertByKey (key : ℕ → ℚ) (i : ℕ) : List ℕ → List ℕ
  | [] => [i]
  | j :: js => if key i ≤ key j then i :: j :: js else j :: insertByKey key i js

/-- Ascending sort of candidate indices by `key`, the embedding of
`np.argsort(dist[i, :])` (ties are returned in an unspecified order by
numpy's unstable quicksort; this sort fixes one tie order, and every
property proved below is tie-order independent). -/
def sortByKey (key : ℕ → ℚ) : List ℕ → List ℕ
  | [] => []
  | i :: is => insertByKey key i (sortByKey key is)

/-- Embedding of the inner candidate loop of
`34_match_controls_by_covariates.py` (lines 87-104) for one treatment
AOI: walk the distance-ordered candidate indices; under `no_reuse` skip
controls already in the used set; otherwise emit a match record at the
current rank and distance, add the control to the used set, and stop
once `picked` reaches k. The source increments `picked` and `rank`
in lockstep; both counters are kept here as there. -/
def pickControls (noReuse : Bool) (k : ℕ) (dcId : String) (buf : ℚ)
    (ctrlIds : List String) (ds : List ℚ) :
    List ℕ → List String → ℕ → ℕ → List MatchResult × List String
  | [], used, _, _ => ([], used)
  | j :: rest, used, picked, rank =>
    let cId := ctrlIds.getD j ""
    if noReuse && used.contains cId then
      pickControls noReuse k dcId buf ctrlIds ds rest used picked rank
    else
      let r : MatchResult := ⟨dcId, cId, buf, rank, ds.getD j 0⟩
      if picked + 1 ≥ k then ([r], cId :: used)
      else
        let res := pickControls noReuse k dcId buf ctrlIds ds rest
          (cId :: used) (picked + 1) (rank + 1)
        (r :: res.1, res.2)

/-- One iteration of the loop over treatment rows: build the distance
row against every control, argsort it, and run the candidate loop
against the accumulated (results, used-controls) state. -/
def dcStep (noReuse : Bool) (k : ℕ) (buf : ℚ) (ctrls : List AoiRow)
    (vars : List ℚ) (acc : List MatchResult × List String) (dc : AoiRow) :
    List MatchResult × List String :=
  let ds := ctrls.map (fun c => sqDistStd vars dc.feats c.feats)
  let ord := sortByKey (fun j => ds.getD j 0) (List.range ds.length)
  let res := pickControls noReuse k dc.aoi_id buf (ctrls.map AoiRow.aoi_id)
    ds ord acc.2 0 0
  (acc.1 ++ res.1, res.2)

/-- The per-feature scaler variances fitted on the stacked
control+treatment feature matrix of a buffer group
(`StandardScaler().fit(np.vstack([X_ctrl, X_dc]))`, which uses the
biased variance). sklearn's fit validates that the matrix has at least
one feature column (and the CLI's `--features` list is non-empty), so
the embedding is only meaningful at inputs with at least one feature;
it does not model the `ValueError` a zero-feature matrix would raise. -/
def groupVars (g : BufferGroup) : List ℚ :=
  let rows := (g.ctrls.map AoiRow.feats) ++ (g.dcs.map AoiRow.feats)
  (List.range (rows.headD []).length).map
    (fun jf => popVarQ (rows.map (fun r => r.getD jf 0)))

/-- Embedding of one `buffer_m` group iteration of `main` in
`34_match_controls_by_covariates.py` (lines 60-104): skip the group if
either side is empty; otherwise fit the scaler variances on the stacked
control+treatment feature matrix and run the greedy loop over treatment
rows, threading the used-controls set in and out. -/
def matchGroup (noReuse : Bool) (k : ℕ) (g : BufferGroup)
    (used : List String) : List MatchResult × List String :=
  if g.dcs.isEmpty || g.ctrls.isEmpty then ([], used)
  else
    g.dcs.foldl (dcStep noReuse k g.buffer_m g.ctrls (groupVars g)) ([], used)

/-- The fold of the buffer-group loop over a (results, used-controls)
state: `used_controls` is declared once before the loop and threaded
through every group, never reset. -/
def matchFold (noReuse : Bool) (k : ℕ) (groups : List BufferGroup)
    (st : List MatchResult × List String) : List MatchResult × List String :=
  groups.foldl (fun acc g =>
    let res := matchGroup noReuse k g acc.2
    (acc.1 ++ res.1, res.2)) st

/-- The full matching engine: all emitted match records, starting from
no results and an empty used-controls set. -/
def matchControls (noReuse : Bool) (k : ℕ) (groups : List BufferGroup) :
    List MatchResult :=
  (matchFold noReuse k groups ([], [])).1

/-- C2 counterexample: one treatment AOI with covariate 1 and two
control AOIs at covariates 0 and 2 — one feature column, so the scaler
fits a (3, 1) matrix with variance 2/3 and the greedy loop is reached —
give tied standardized distances (squared: (1/(2/3)) = 3/2 on both
sides). The engine emits, for the single (treatment, buffer) pair,
ranks 0 and 1 whose distances are both 3/2 — equal, hence NOT strictly
increasing in rank: the candidate order is an argsort, which only
guarantees non-decreasing distances. -/
theorem match_distance_ties_not_strict :
    (matchControls true 3
        [⟨100, [⟨"d", [1]⟩], [⟨"c1", [0]⟩, ⟨"c2", [2]⟩]⟩]).map
        (fun r => (r.data_center_aoi_id, r.control_aoi_id, r.match_rank, r.distance))
      = [("d", "c1", 0, 3 / 2), ("d", "c2", 1, 3 / 2)] := by
  norm_num [matchControls, matchFold, matchGroup, dcStep, groupVars, popVarQ, meanQ,
    sqDistStd, scaleVar, sortByKey, insertByKey, pickControls]
  norm_num [List.range_succ]
  have hs : (("c2" : String) = "c1") = False := by simp
  have hl : (([⟨"c1", [0]⟩, ⟨"c2", [2]⟩] : List AoiRow) = []) = False := by simp
  simp [hs, hl]

theorem mem_insertByKey (key : ℕ → ℚ) (i x : ℕ) :
    ∀ l, x ∈ insertByKey key i l ↔ x = i ∨ x ∈ l := by
  intro l
  induction l with
  | nil => simp [insertByKey]
  | cons j js ih =>
    by_cases h : key i ≤ key j
    · simp [insertByKey, h]
    · simp only [insertByKey, if_neg h, List.mem_cons, ih]
      tauto

theorem insertByKey_pairwise (key : ℕ → ℚ) (i : ℕ) :
    ∀ l, l.Pairwise (fun a b => key a ≤ key b) →
      (insertByKey key i l).Pairwise (fun a b => key a ≤ key b) := by
  intro l
  induction l with
  | nil => intro _; simp [insertByKey]
  | cons j js ih =>
    intro hp
    rcases List.pairwise_cons.mp hp with ⟨hj, hjs⟩
    by_cases h : key i ≤ key j
    · rw [insertByKey, if_pos h]
      refine List.pairwise_cons.mpr ⟨?_, hp⟩
      intro x hx
      rcases List.mem_cons.mp hx with rfl | hx
      · exact h
      · exact le_trans h (hj x hx)
    · rw [insertByKey, if_neg h]
      refine List.pairwise_cons.mpr ⟨?_, ih hjs⟩
      intro x hx
      rcases (mem_insertByKey key i x js).mp hx with rfl | hx
      · exact le_of_not_le h
      · exact hj x hx

theorem sortByKey_pairwise (key : ℕ → ℚ) :
    ∀ l, (sortByKey key l).Pairwise (fun a b => key a ≤ key b) := by
  intro l
  induction l with
  | nil => simp [sortByKey]
  | cons i is ih => exact insertByKey_pairwise key i _ ih

theorem pickControls_spec (k : ℕ) (dcId : String) (buf : ℚ)
    (ctrlIds : List String) (ds : List ℚ) :
    ∀ (ord : List ℕ) (used : List String) (picked rank : ℕ),
      (∀ x ∈ used, x ∈ (pickControls true k dcId buf ctrlIds ds ord used picked rank).2)
      ∧ (∀ r ∈ (pickControls true k dcId buf ctrlIds ds ord used picked rank).1,
          r.control_aoi_id ∈ (pickControls true k dcId buf ctrlIds ds ord used picked rank).2
          ∧ r.control_aoi_id ∉ used)
      ∧ ((pickControls true k dcId buf ctrlIds ds ord used picked rank).1.map
          (fun r => r.control_aoi_id)).Nodup := by
  intro ord
  induction ord with
  | nil =>
    intro used picked rank
    simp [pickControls]
  | cons j rest ih =>
    intro used picked rank
    by_cases hmem : ctrlIds.getD j "" ∈ used
    · have hb : used.contains (ctrlIds.getD j "") = true := by simpa using hmem
      have hused : pickControls true k dcId buf ctrlIds ds (j :: rest) used picked rank
          = pickControls true k dcId buf ctrlIds ds rest used picked rank := by
        simp [pickControls, hb]
        intro hcontra
        exact absurd (show ctrlIds[j]?.getD "" ∈ used by simpa using hmem) hcontra
      rw [hused]
      exact ih used picked rank
    · have hb : used.contains (ctrlIds.getD j "") = false := by simpa using hmem
      by_cases hk : picked + 1 ≥ k
      · have heq : pickControls true k dcId buf ctrlIds ds (j :: rest) used picked rank
            = ([⟨dcId, ctrlIds.getD j "", buf, rank, ds.getD j 0⟩],
               ctrlIds.getD j "" :: used) := by
          simp [pickControls, hb, hk]
          intro hcontra
          exact absurd hcontra (by simpa using hmem)
        rw [heq]
        refine ⟨fun x hx => List.mem_cons_of_mem _ hx, ?_, by simp⟩
        intro r hr
        rw [List.mem_singleton] at hr
        subst hr
        exact ⟨List.mem_cons_self _ _, hmem⟩
      · obtain ⟨ih1, ih2, ih3⟩ := ih (ctrlIds.getD j "" :: used) (picked + 1) (rank + 1)
        have heq : pickControls true k dcId buf ctrlIds ds (j :: rest) used picked rank
            = (⟨dcId, ctrlIds.getD j "", buf, rank, ds.getD j 0⟩ ::
                (pickControls true k dcId buf ctrlIds ds rest
                  (ctrlIds.getD j "" :: used) (picked + 1) (rank + 1)).1,
               (pickControls true k dcId buf ctrlIds ds rest
                  (ctrlIds.getD j "" :: used) (picked + 1) (rank + 1)).2) := by
          simp [pickControls, hb, hk]
          intro hcontra
          exact absurd hcontra (by simpa using hmem)
        rw [heq]
        refine ⟨?_, ?_, ?_⟩
        · intro x hx
          exact ih1 x (List.mem_cons_of_mem _ hx)
        · intro r hr
          rcases List.mem_cons.mp hr with rfl | hr
        
          · exact ⟨ih1 _ (List.mem_cons_self _ _), hmem⟩
          · obtain ⟨h1, h2⟩ := ih2 r hr
            exact ⟨h1, fun hru => h2 (List.mem_cons_of_mem _ hru)⟩
        · simp only [List.map_cons]
          refine List.nodup_cons.mpr ⟨?_, ih3⟩
          intro hmm
          rcases List.mem_map.mp hmm with ⟨r, hr, hrc⟩
          obtain ⟨_, h2⟩ := ih2 r hr
          exact h2 (hrc ▸ List.mem_cons_self _ used)

theorem pickControls_cons_skip (k : ℕ) (dcId : String) (buf : ℚ)
    (ctrlIds : List String) (ds : List ℚ) (j : ℕ) (rest : List ℕ)
    (used : List String) (picked rank : ℕ)
    (hmem : ctrlIds.getD j "" ∈ used) :
    pickControls true k dcId buf ctrlIds ds (j :: rest) used picked rank
      = pickControls true k dcId buf ctrlIds ds rest used picked rank := by
  have hb : used.contains (ctrlIds.getD j "") = true := by simpa using hmem
  simp [pickControls, hb]
  intro hcontra
  exact absurd (show ctrlIds[j]?.getD "" ∈ used by simpa using hmem) hcontra

theorem pickControls_cons_last (k : ℕ) (dcId : String) (buf : ℚ)
    (ctrlIds : List String) (ds : List ℚ) (j : ℕ) (rest : List ℕ)
    (used : List String) (picked rank : ℕ)
    (hmem : ctrlIds.getD j "" ∉ used) (hk : picked + 1 ≥ k) :
    pickControls true k dcId buf ctrlIds ds (j :: rest) used picked rank
      = ([⟨dcId, ctrlIds.getD j "", buf, rank, ds.getD j 0⟩],
         ctrlIds.getD j "" :: used) := by
  have hb : used.contains (ctrlIds.getD j "") = false := by simpa using hmem
  simp [pickControls, hb, hk]
  intro hcontra
  exact absurd hcontra (by simpa using hmem)

theorem pickControls_cons_step (k : ℕ) (dcId : String) (buf : ℚ)
    (ctrlIds : List String) (ds : List ℚ) (j : ℕ) (rest : List ℕ)
    (used : List String) (picked rank : ℕ)
    (hmem : ctrlIds.getD j "" ∉ used) (hk : ¬ (picked + 1 ≥ k)) :
    pickControls true k dcId buf ctrlIds ds (j :: rest) used picked rank
      = (⟨dcId, ctrlIds.getD j "", buf, rank, ds.getD j 0⟩ ::
          (pickControls true k dcId buf ctrlIds ds rest
            (ctrlIds.getD j "" :: used) (picked + 1) (rank + 1)).1,
         (pickControls true k dcId buf ctrlIds ds rest
            (ctrlIds.getD j "" :: used) (picked + 1) (rank + 1)).2) := by
  have hb : used.contains (ctrlIds.getD j "") = false := by simpa using hmem
  simp [pickControls, hb, hk]
  intro hcontra
  exact absurd hcontra (by simpa using hmem)

theorem pickControls_ranks (k : ℕ) (dcId : String) (buf : ℚ)
    (ctrlIds : List String) (ds : List ℚ) :
    ∀ (ord : List ℕ) (used : List String) (picked rank : ℕ),
      ((pickControls true k dcId buf ctrlIds ds ord used picked rank).1.map
          (fun r => r.match_rank))
        = List.range' rank
            (pickControls true k dcId buf ctrlIds ds ord used picked rank).1.length
      ∧ (picked < k →
          (pickControls true k dcId buf ctrlIds ds ord used picked rank).1.length
            + picked ≤ k) := by
  intro ord
  induction ord with
  | nil =>
    intro used picked rank
    constructor
    · simp [pickControls]
    · intro hkp
      simp [pickControls]
      omega
  | cons j rest ih =>
    intro used picked rank
    by_cases hmem : ctrlIds.getD j "" ∈ used
    · rw [pickControls_cons_skip k dcId buf ctrlIds ds j rest used picked rank hmem]
      exact ih used picked rank
    · by_cases hk : picked + 1 ≥ k
      · rw [pickControls_cons_last k dcId buf ctrlIds ds j rest used picked rank hmem hk]
        constructor
        · simp [List.range'_succ]
        · intro hkp
          simp
          omega
      · rw [pickControls_cons_step k dcId buf ctrlIds ds j rest used picked rank hmem hk]
        obtain ⟨ih1, ih2⟩ := ih (ctrlIds.getD j "" :: used) (picked + 1) (rank + 1)
        constructor
        · simp only [List.map_cons, List.length_cons, ih1, List.range'_succ]
        · intro hkp
          have := ih2 (by omega)
          simp only [List.length_cons]
          omega

theorem pickControls_dist_mem (k : ℕ) (dcId : String) (buf : ℚ)
    (ctrlIds : List String) (ds : List ℚ) :
    ∀ (ord : List ℕ) (used : List String) (picked rank : ℕ),
      ∀ r ∈ (pickControls true k dcId buf ctrlIds ds ord used picked rank).1,
        ∃ j ∈ ord, r.distance = ds.getD j 0 := by
  intro ord
  induction ord with
  | nil =>
    intro used picked rank r hr
    simp [pickControls] at hr
  | cons j rest ih =>
    intro used picked rank r hr
    by_cases hmem : ctrlIds.getD j "" ∈ used
    · rw [pickControls_cons_skip k dcId buf ctrlIds ds j rest used picked rank hmem] at hr
      obtain ⟨j', hj', hd⟩ := ih used picked rank r hr
      exact ⟨j', List.mem_cons_of_mem j hj', hd⟩
    · by_cases hk : picked + 1 ≥ k
      · rw [pickControls_cons_last k dcId buf ctrlIds ds j rest used picked rank hmem hk] at hr
        rw [List.mem_singleton] at hr
        subst hr
        exact ⟨j, List.mem_cons_self j rest, rfl⟩
      · rw [pickControls_cons_step k dcId buf ctrlIds ds j rest used picked rank hmem hk] at hr
        rcases List.mem_cons.mp hr with rfl | hr
        · exact ⟨j, List.mem_cons_self j rest, rfl⟩
        · obtain ⟨j', hj', hd⟩ := ih (ctrlIds.getD j "" :: used) (picked + 1) (rank + 1) r hr
          exact ⟨j', List.mem_cons_of_mem j hj', hd⟩

theorem pickControls_dist_sorted (k : ℕ) (dcId : String) (buf : ℚ)
    (ctrlIds : List String) (ds : List ℚ) :
    ∀ (ord : List ℕ) (used : List String) (picked rank : ℕ),
      ord.Pairwise (fun a b => ds.getD a 0 ≤ ds.getD b 0) →
      ((pickControls true k dcId buf ctrlIds ds ord used picked rank).1.map
        (fun r => r.distance)).Pairwise (· ≤ ·) := by
  intro ord
  induction ord with
  | nil =>
    intro used picked rank _
    simp [pickControls]
  | cons j rest ih =>
    intro used picked rank hp
    rcases List.pairwise_cons.mp hp with ⟨hj, hrest⟩
    by_cases hmem : ctrlIds.getD j "" ∈ used
    · rw [pickControls_cons_skip k dcId buf ctrlIds ds j rest used picked rank hmem]
      exact ih used picked rank hrest
    · by_cases hk : picked + 1 ≥ k
      · rw [pickControls_cons_last k dcId buf ctrlIds ds j rest used picked rank hmem hk]
        simp
      · rw [pickControls_cons_step k dcId buf ctrlIds ds j rest used picked rank hmem hk]
        simp only [List.map_cons]
        refine List.pairwise_cons.mpr ⟨?_, ih _ (picked + 1) (rank + 1) hrest⟩
        intro d hd
        rcases List.mem_map.mp hd with ⟨r, hr, hrd⟩
        obtain ⟨j', hj', hdist⟩ :=
          pickControls_dist_mem k dcId buf ctrlIds ds rest
            (ctrlIds.getD j "" :: used) (picked + 1) (rank + 1) r hr
        rw [← hrd, hdist]
        exact hj j' hj'

theorem dcsFoldl_spec (k : ℕ) (buf : ℚ) (ctrls : List AoiRow) (vars : List ℚ) :
    ∀ (dcs : List AoiRow) (acc : List MatchResult × List String),
      (∀ x ∈ acc.2, x ∈ (dcs.foldl (dcStep true k buf ctrls vars) acc).2)
      ∧ ∃ new, (dcs.foldl (dcStep true k buf ctrls vars) acc).1 = acc.1 ++ new
          ∧ (∀ r ∈ new,
              r.control_aoi_id ∈ (dcs.foldl (dcStep true k buf ctrls vars) acc).2
              ∧ r.control_aoi_id ∉ acc.2)
          ∧ (new.map (fun r => r.control_aoi_id)).Nodup := by
  intro dcs
  induction dcs with
  | nil =>
    intro acc
    exact ⟨fun x hx => hx, [], by simp, by simp, by simp⟩
  | cons dc dcs ih =>
    intro acc
    have hstep : List.foldl (dcStep true k buf ctrls vars) acc (dc :: dcs)
        = List.foldl (dcStep true k buf ctrls vars)
            (dcStep true k buf ctrls vars acc dc) dcs := rfl
    obtain ⟨s1, s2, s3⟩ := pickControls_spec k dc.aoi_id buf (ctrls.map AoiRow.aoi_id)
      (ctrls.map (fun c => sqDistStd vars dc.feats c.feats))
      (sortByKey
        (fun j => (ctrls.map (fun c => sqDistStd vars dc.feats c.feats)).getD j 0)
        (List.range (ctrls.map (fun c => sqDistStd vars dc.feats c.feats)).length))
      acc.2 0 0
    have hacc1 : (dcStep true k buf ctrls vars acc dc).1
        = acc.1 ++ (pickControls true k dc.aoi_id buf (ctrls.map AoiRow.aoi_id)
            (ctrls.map (fun c => sqDistStd vars dc.feats c.feats))
            (sortByKey
              (fun j => (ctrls.map (fun c => sqDistStd vars dc.feats c.feats)).getD j 0)
              (List.range (ctrls.map (fun c => sqDistStd vars dc.feats c.feats)).length))
            acc.2 0 0).1 := rfl
    have hacc2 : (dcStep true k buf ctrls vars acc dc).2
        = (pickControls true k dc.aoi_id buf (ctrls.map AoiRow.aoi_id)
            (ctrls.map (fun c => sqDistStd vars dc.feats c.feats))
            (sortByKey
              (fun j => (ctrls.map (fun c => sqDistStd vars dc.feats c.feats)).getD j 0)
              (List.range (ctrls.map (fun c => sqDistStd vars dc.feats c.feats)).length))
            acc.2 0 0).2 := rfl
    obtain ⟨i1, new', i2, i3, i4⟩ := ih (dcStep true k buf ctrls vars acc dc)
    rw [hstep]
    refine ⟨?_, (pickControls true k dc.aoi_id buf (ctrls.map AoiRow.aoi_id)
        (ctrls.map (fun c => sqDistStd vars dc.feats c.feats))
        (sortByKey
          (fun j => (ctrls.map (fun c => sqDistStd vars dc.feats c.feats)).getD j 0)
          (List.range (ctrls.map (fun c => sqDistStd vars dc.feats c.feats)).length))
        acc.2 0 0).1 ++ new', ?_, ?_, ?_⟩
    · intro x hx
      exact i1 x (hacc2 ▸ s1 x hx)
    · rw [i2, hacc1, List.append_assoc]
    · intro r hr
      rcases List.mem_append.mp hr with hr1 | hr2
      · obtain ⟨hin, hout⟩ := s2 r hr1
        exact ⟨i1 _ (hacc2 ▸ hin), hout⟩
      · obtain ⟨hin, hout⟩ := i3 r hr2
        refine ⟨hin, fun hru => hout ?_⟩
        exact hacc2 ▸ s1 _ hru
    · rw [List.map_append]
      refine List.Nodup.append s3 i4 ?_
      intro x hx1 hx2
      rcases List.mem_map.mp hx1 with ⟨r, hr, hrc⟩
      rcases List.mem_map.mp hx2 with ⟨r', hr', hrc'⟩
      obtain ⟨hin, _⟩ := s2 r hr
      obtain ⟨_, hout'⟩ := i3 r' hr'
      exact hout' (hacc2 ▸ (hrc' ▸ hrc ▸ hin))

theorem matchGroup_spec (k : ℕ) (g : BufferGroup) (used : List String) :
    (∀ x ∈ used, x ∈ (matchGroup true k g used).2)
    ∧ (∀ r ∈ (matchGroup true k g used).1,
        r.control_aoi_id ∈ (matchGroup true k g used).2 ∧ r.control_aoi_id ∉ used)
    ∧ ((matchGroup true k g used).1.map (fun r => r.control_aoi_id)).Nodup := by
  by_cases he : (g.dcs.isEmpty || g.ctrls.isEmpty) = true
  · have heq : matchGroup true k g used = ([], used) := by
      unfold matchGroup
      rw [if_pos he]
    rw [heq]
    exact ⟨fun x hx => hx, by simp, by simp⟩
  · have heq : matchGroup true k g used
        = g.dcs.foldl (dcStep true k g.buffer_m g.ctrls (groupVars g)) ([], used) := by
      unfold matchGroup
      rw [if_neg he]
    obtain ⟨c1, new, h1, h2, h3⟩ :=
      dcsFoldl_spec k g.buffer_m g.ctrls (groupVars g) g.dcs ([], used)
    rw [heq]
    refine ⟨fun x hx => c1 x hx, ?_, ?_⟩
    · intro r hr
      rw [h1] at hr
      simp only [List.nil_append] at hr
      exact h2 r hr
    · rw [h1]
      simpa using h3

theorem matchFold_spec (k : ℕ) :
    ∀ (groups : List BufferGroup) (st : List MatchResult × List String),
      (∀ x ∈ st.2, x ∈ (matchFold true k groups st).2)
      ∧ ∃ new, (matchFold true k groups st).1 = st.1 ++ new
          ∧ (∀ r ∈ new, r.control_aoi_id ∈ (matchFold true k groups st).2
              ∧ r.control_aoi_id ∉ st.2)
          ∧ (new.map (fun r => r.control_aoi_id)).Nodup := by
  intro groups
  induction groups with
  | nil =>
    intro st
    exact ⟨fun x hx => hx, [], by simp [matchFold], by simp, by simp⟩
  | cons g gs ih =>
    intro st
    have hstep : matchFold true k (g :: gs) st
        = matchFold true k gs
            (st.1 ++ (matchGroup true k g st.2).1, (matchGroup true k g st.2).2) := rfl
    obtain ⟨s1, s2, s3⟩ := matchGroup_spec k g st.2
    obtain ⟨i1, new', i2, i3, i4⟩ :=
      ih (st.1 ++ (matchGroup true k g st.2).1, (matchGroup true k g st.2).2)
    rw [hstep]
    refine ⟨?_, (matchGroup true k g st.2).1 ++ new', ?_, ?_, ?_⟩
    · intro x hx
      exact i1 x (s1 x hx)
    · rw [i2, List.append_assoc]
    · intro r hr
      rcases List.mem_append.mp hr with hr1 | hr2
      · obtain ⟨hin, hout⟩ := s2 r hr1
        exact ⟨i1 _ hin, hout⟩
      · obtain ⟨hin, hout⟩ := i3 r hr2
        exact ⟨hin, fun hru => hout (s1 _ hru)⟩
    · rw [List.map_append]
      refine List.Nodup.append s3 i4 ?_
      intro x hx1 hx2
      rcases List.mem_map.mp hx1 with ⟨r, hr, hrc⟩
      rcases List.mem_map.mp hx2 with ⟨r', hr', hrc'⟩
      obtain ⟨hin, _⟩ := s2 r hr
      obtain ⟨_, hout'⟩ := i3 r' hr'
      exact hout' (hrc' ▸ hrc ▸ hin)

/-- C2 (amended): with no_reuse enabled, no control AOI id appears in
more than one match record across the entire output; and for every
treatment AOI in a buffer group (whose records are exactly one
candidate-loop run over the argsorted distance row, from an arbitrary
accumulated used set), the emitted match_rank values are the contiguous
0-based sequence 0..m-1 with m ≤ k (k ≥ 1), and the associated
distances are NON-DECREASING in rank — not strictly increasing, since
tied distances are emitted in argsort order. -/
theorem matching_no_reuse_invariants (groups : List BufferGroup) (k : ℕ)
    (hk : 1 ≤ k) :
    ((matchControls true k groups).map (fun r => r.control_aoi_id)).Nodup
    ∧ (∀ (dcId : String) (buf : ℚ) (ctrlIds : List String) (ds : List ℚ)
        (used : List String),
        ((pickControls true k dcId buf ctrlIds ds
            (sortByKey (fun j => ds.getD j 0) (List.range ds.length))
            used 0 0).1.map (fun r => r.match_rank))
          = List.range
              (pickControls true k dcId buf ctrlIds ds
                (sortByKey (fun j => ds.getD j 0) (List.range ds.length))
                used 0 0).1.length
        ∧ (pickControls true k dcId buf ctrlIds ds
            (sortByKey (fun j => ds.getD j 0) (List.range ds.length))
            used 0 0).1.length ≤ k
        ∧ ((pickControls true k dcId buf ctrlIds ds
            (sortByKey (fun j => ds.getD j 0) (List.range ds.length))
            used 0 0).1.map (fun r => r.distance)).Pairwise (· ≤ ·)) := by
  constructor
  · obtain ⟨_, new, h1, _, h3⟩ := matchFold_spec k groups ([], [])
    unfold matchControls
    rw [h1]
    simpa using h3
  · intro dcId buf ctrlIds ds used
    obtain ⟨hr1, hr2⟩ := pickControls_ranks k dcId buf ctrlIds ds
      (sortByKey (fun j => ds.getD j 0) (List.range ds.length)) used 0 0
    refine ⟨?_, ?_, ?_⟩
    · rw [hr1]
      exact (List.range_eq_range' _).symm
    · have := hr2 (by omega)
      omega
    · exact pickControls_dist_sorted k dcId buf ctrlIds ds
        (sortByKey (fun j => ds.getD j 0) (List.range ds.length)) used 0 0
        (sortByKey_pairwise (fun j => ds.getD j 0) (List.range ds.length))

/-- Witness for `matching_no_reuse_invariants` at one buffer group with
one treatment and one control AOI, k = 2, and the candidate loop run at
the two-candidate tied distance row [0, 0]. -/
theorem matching_no_reuse_invariants_witness :
    ((matchControls true 2 [⟨100, [⟨"d", [0]⟩], [⟨"c1", [0]⟩]⟩]).map
        (fun r => r.control_aoi_id)).Nodup
    ∧ (((pickControls true 2 "d" 100 ["c1", "c2"] [0, 0]
          (sortByKey (fun j => ([0, 0] : List ℚ).getD j 0) (List.range ([0, 0] : List ℚ).length))
          [] 0 0).1.map (fun r => r.match_rank))
        = List.range
            (pickControls true 2 "d" 100 ["c1", "c2"] [0, 0]
              (sortByKey (fun j => ([0, 0] : List ℚ).getD j 0) (List.range ([0, 0] : List ℚ).length))
              [] 0 0).1.length
      ∧ (pickControls true 2 "d" 100 ["c1", "c2"] [0, 0]
          (sortByKey (fun j => ([0, 0] : List ℚ).getD j 0) (List.range ([0, 0] : List ℚ).length))
          [] 0 0).1.length ≤ 2
      ∧ ((pickControls true 2 "d" 100 ["c1", "c2"] [0, 0]
          (sortByKey (fun j => ([0, 0] : List ℚ).getD j 0) (List.range ([0, 0] : List ℚ).length))
          [] 0 0).1.map (fun r => r.distance)).Pairwise (· ≤ ·)) :=
  ⟨(matching_no_reuse_invariants [⟨100, [⟨"d", [0]⟩], [⟨"c1", [0]⟩]⟩] 2 (by decide)).1,
   (matching_no_reuse_invariants [⟨100, [⟨"d", [0]⟩], [⟨"c1", [0]⟩]⟩] 2 (by decide)).2
     "d" 100 ["c1", "c2"] [0, 0] []⟩

/-- C10: the used-controls exclusion set is one set threaded across all
buffer groups and never reset: folding the group list splits as a fold
of the later groups from the state left by the earlier ones, and with
no_reuse enabled a control id selected during the earlier groups is
excluded everywhere afterwards — every record emitted beyond the
earlier groups' output carries a different control id. -/
theorem used_controls_shared_across_groups (k : ℕ)
    (gs1 gs2 : List BufferGroup) (c : String)
    (hc : c ∈ (matchFold true k gs1 ([], [])).1.map (fun r => r.control_aoi_id)) :
    matchFold true k (gs1 ++ gs2) ([], [])
      = matchFold true k gs2 (matchFold true k gs1 ([], []))
    ∧ ∀ r ∈ (matchFold true k (gs1 ++ gs2) ([], [])).1,
        r ∉ (matchFold true k gs1 ([], [])).1 → r.control_aoi_id ≠ c := by
  have happ : matchFold true k (gs1 ++ gs2) ([], [])
      = matchFold true k gs2 (matchFold true k gs1 ([], [])) := by
    unfold matchFold
    rw [List.foldl_append]
  refine ⟨happ, ?_⟩
  obtain ⟨_, new1, h11, h12, _⟩ := matchFold_spec k gs1 ([], [])
  have hcu : c ∈ (matchFold true k gs1 ([], [])).2 := by
    rcases List.mem_map.mp hc with ⟨r, hr, hrc⟩
    rw [h11] at hr
    simp only [List.nil_append] at hr
    exact hrc ▸ (h12 r hr).1
  obtain ⟨_, new2, h21, h22, _⟩ := matchFold_spec k gs2 (matchFold true k gs1 ([], []))
  intro r hr hnot hrc
  rw [happ, h21] at hr
  rcases List.mem_append.mp hr with hr1 | hr2
  · exact hnot hr1
  · exact (h22 r hr2).2 (hrc ▸ hcu)

/-- Witness for `used_controls_shared_across_groups`: with one feature
column (treatment covariate 1, control covariate 0), the control c1 is
matched in the 100 m buffer group, and the run over both groups splits
as the 200 m group's fold from the 100 m group's state. -/
theorem used_controls_shared_across_groups_witness :
    matchFold true 1
        ([⟨100, [⟨"d1", [1]⟩], [⟨"c1", [0]⟩]⟩]
          ++ [⟨200, [⟨"d2", [1]⟩], [⟨"c1", [0]⟩]⟩])
        ([], [])
      = matchFold true 1 [⟨200, [⟨"d2", [1]⟩], [⟨"c1", [0]⟩]⟩]
          (matchFold true 1 [⟨100, [⟨"d1", [1]⟩], [⟨"c1", [0]⟩]⟩] ([], [])) :=
  (used_controls_shared_across_groups 1
    [⟨100, [⟨"d1", [1]⟩], [⟨"c1", [0]⟩]⟩] [⟨200, [⟨"d2", [1]⟩], [⟨"c1", [0]⟩]⟩] "c1"
    (by
      norm_num [matchFold, matchGroup, dcStep, groupVars, popVarQ, meanQ,
        sqDistStd, scaleVar, sortByKey, insertByKey, pickControls,
        List.range_succ])).1
